import Mathlib

/-!
Verification development for `QEfficient/transformers/models/llama_swiftkv/
modeling_llama_swiftkv.py` (the SwiftKV variant of the Llama decoder).

The PyTorch code is shallowly embedded: a tensor is a list of dimension
sizes together with an entry function; torch operations used by the file
(`view`, `transpose`, `matmul`, linear layers, `repeat_kv`, `torch.where`,
`torch.triu`, advanced indexing, `argmax`) are translated directly.
External collaborators that the spec declares out of scope (rotary
embedding, softmax, RMSNorm, the MLP block, embedding lookup, the prefix
decoder layers) are carried as explicit function parameters.  The
key/value cache and the helper `_create_causal_mask` live outside the
given source tree and are modelled from the spec where noted.
-/

namespace SwiftKV

/-- A tensor: dimension sizes plus an entry function (junk outside range).
Scalar type `α` is ℚ for floating tensors, ℤ for index tensors, `Bool`
for boolean masks. -/
structure Tens (α : Type) where
  dims : List Nat
  entry : List Nat → α

/-- Number of elements, as in `torch.Tensor.numel`. -/
def Tens.numel (t : Tens α) : Nat := t.dims.prod

/-- Size of dimension `i` (i.e. `t.shape[i]`). -/
def Tens.dimAt (t : Tens α) (i : Nat) : Nat := t.dims.getD i 0

/-- Size of the last dimension (`t.shape[-1]`). -/
def Tens.dimLast (t : Tens α) : Nat := t.dims.getLast?.getD 0

/-- Size of the second-to-last dimension (`t.shape[-2]`). -/
def Tens.dimPenult (t : Tens α) : Nat := t.dims.dropLast.getLast?.getD 0

/-- Errors surfaced by the embedded forward passes.  `tupleUnpackArity` is
Python's ValueError from unpacking a tensor whose first dimension is not
the number of targets; `noneCacheRead` is the AttributeError from calling
`read_only` on `None`. -/
inductive Err where
  | tupleUnpackArity
  | viewSizeMismatch
  | matmulDimMismatch
  | missingLayerIdx
  | noneCacheRead
  | missingCacheEntry
  | attnOutputShape
  | maskNotBoolean
  | malformedFourDimMask
deriving DecidableEq

/-- Row-major flattening of a multi-index against a shape. -/
def flatIndex : List Nat → List Nat → Nat
  | _ :: ds, i :: is => i * ds.prod + flatIndex ds is
  | _, _ => 0

/-- Inverse of `flatIndex`: recover a multi-index from a flat offset. -/
def unflatIndex : List Nat → Nat → List Nat
  | [], _ => []
  | _ :: ds, n => n / ds.prod :: unflatIndex ds (n % ds.prod)

/-- `torch.Tensor.view` / `reshape`: succeeds iff the element counts
agree, reinterpreting the row-major layout. -/
def Tens.view (t : Tens α) (sh : List Nat) : Except Err (Tens α) :=
  if sh.prod = t.dims.prod then
    .ok ⟨sh, fun ix => t.entry (unflatIndex t.dims (flatIndex sh ix))⟩
  else .error .viewSizeMismatch

/-- Swap positions `i` and `j` of a list (for `transpose`). -/
def swapIdx (l : List Nat) (i j : Nat) : List Nat :=
  (l.set i (l.getD j 0)).set j (l.getD i 0)

/-- `torch.Tensor.transpose(i, j)`. -/
def Tens.transpose (t : Tens α) (i j : Nat) : Tens α :=
  ⟨swapIdx t.dims i j, fun ix => t.entry (swapIdx ix i j)⟩

/-- Iterated unpacking `a, b = t` of a tensor: iterates over dimension 0,
so it succeeds exactly when `t.shape[0] == 2` (otherwise Python raises a
ValueError).  This is what line 76 of the source does to the output of
`q_proj_swiftkv`. -/
def unpack2 (t : Tens α) : Except Err (Tens α × Tens α) :=
  match t.dims with
  | d :: rest =>
      if d = 2 then
        .ok (⟨rest, fun ix => t.entry (0 :: ix)⟩, ⟨rest, fun ix => t.entry (1 :: ix)⟩)
      else .error .tupleUnpackArity
  | [] => .error .tupleUnpackArity

/-- Batched `torch.matmul` on the last two dimensions; requires equal
batch dimensions and matching inner dimension. -/
def Tens.matmul (a b : Tens ℚ) : Except Err (Tens ℚ) :=
  let k := a.dimLast
  if a.dims.dropLast.dropLast = b.dims.dropLast.dropLast then
    if k = b.dimPenult then
      .ok ⟨a.dims.dropLast ++ [b.dimLast], fun ix =>
        ∑ j ∈ Finset.range k,
          a.entry (ix.dropLast ++ [j]) *
          b.entry (ix.dropLast.dropLast ++ [j, ix.getLast?.getD 0])⟩
    else .error .matmulDimMismatch
  else .error .matmulDimMismatch

/-- Pointwise scalar multiplication (used for the `1/sqrt(head_dim)`
attention scale). -/
def Tens.scale (t : Tens ℚ) (c : ℚ) : Tens ℚ :=
  ⟨t.dims, fun ix => t.entry ix * c⟩

/-- Pointwise addition (residual connections); shapes agree at use sites. -/
def Tens.add (a b : Tens ℚ) : Tens ℚ :=
  ⟨a.dims, fun ix => a.entry ix + b.entry ix⟩

/-- Right-aligned broadcast of an index against a (possibly smaller or
size-1) shape, as torch broadcasting does. -/
def bcIdx (dims ix : List Nat) : List Nat :=
  (dims.zip (ix.drop (ix.length - dims.length))).map
    (fun p => if p.1 = 1 then 0 else p.2)

/-- `torch.where(mask, -10000.0, w)` with a boolean mask broadcast against
`w` (source line 101). -/
def whereNeg (mask : Tens Bool) (w : Tens ℚ) : Tens ℚ :=
  ⟨w.dims, fun ix => if mask.entry (bcIdx mask.dims ix) then -10000 else w.entry ix⟩

/-- `transformers...repeat_kv`: expand `num_key_value_heads` to
`num_attention_heads` by contiguous group replication along dim 1.
Modelled from the spec: group `g` serves query heads
`[g*ratio, (g+1)*ratio)` (the helper is imported, not in src/). -/
def repeatKv (t : Tens ℚ) (n : Nat) : Tens ℚ :=
  ⟨t.dims.set 1 (t.dims.getD 1 0 * n), fun ix => t.entry (ix.set 1 (ix.getD 1 0 / n))⟩

/-- `torch.empty_like`: same shape, unspecified contents (all-zero in the
model; the tensors built this way are only ever fed to the discarded slot
of the paired rotary function). -/
def emptyLike (t : Tens α) [Inhabited α] : Tens α := ⟨t.dims, fun _ => default⟩

/-- Concatenation along the second-to-last (sequence) dimension, for the
append-only cache model. -/
def catSeq (a b : Tens ℚ) : Tens ℚ :=
  let n := a.dims.length
  let sA := a.dimPenult
  ⟨a.dims.set (n - 2) (sA + b.dimPenult), fun ix =>
    let s := ix.getD (n - 2) 0
    if s < sA then a.entry ix else b.entry (ix.set (n - 2) (s - sA))⟩

/-- `torch.triu(m, diagonal)` for a 2-D tensor: keep entries with
`col - row ≥ diagonal`, zero the rest. -/
def triu (t : Tens ℚ) (diag : ℤ) : Tens ℚ :=
  ⟨t.dims, fun ix =>
    if (ix.getD 1 0 : ℤ) - (ix.getD 0 0 : ℤ) ≥ diag then t.entry ix else 0⟩

/-- `torch.full((r, c), v)`. -/
def fullTens (r c : Nat) (v : ℚ) : Tens ℚ := ⟨[r, c], fun _ => v⟩

/-- A `torch.nn.Linear` layer: output features, input features, weight and
bias.  When the layer is constructed with `bias=False` the bias function
is zero. -/
structure Linear where
  outF : Nat
  inF : Nat
  w : Nat → Nat → ℚ
  b : Nat → ℚ

/-- Apply a linear layer along the last dimension, as `nn.Linear` does. -/
def Linear.apply (l : Linear) (x : Tens ℚ) : Tens ℚ :=
  ⟨x.dims.dropLast ++ [l.outF], fun ix =>
    l.b (ix.getLast?.getD 0) +
      ∑ j ∈ Finset.range l.inF, l.w (ix.getLast?.getD 0) j * x.entry (ix.dropLast ++ [j])⟩

/-- The minimum value of `torch.float32`, i.e. `torch.finfo(dtype).min`
for the default dtype: `-(2 - 2^-23) * 2^127` exactly. -/
def f32Min : ℚ := -(2 ^ 128 - 2 ^ 104)

/-- Cache access events, recorded so that the write-once/read-once
invariants of the SwiftKV design can be stated.  A write event carries
the K and V tensors passed to `write_only`. -/
inductive CEvent where
  | read (layer : Nat)
  | write (layer : Nat) (k v : Tens ℚ)

/-- The key/value cache.  Modelled from the spec: an "abstract per-layer
store supporting: usable-length query, read-only fetch, write-only
append, and legacy-format export" (`QEffDynamicCache` itself is not under
src/).  `entries` maps a layer index to its (K, V) pair, appended along
the sequence axis; `isStatic`/`maxCacheLen` model the
`isinstance(past_key_values, StaticCache)` test and `get_max_length` used
by the mask builder; `log` records the accessor calls. -/
structure CacheState where
  entries : Nat → Option (Tens ℚ × Tens ℚ)
  isStatic : Bool
  maxCacheLen : Nat
  log : List CEvent

/-- A fresh `QEffDynamicCache()`. -/
def emptyCache : CacheState := ⟨fun _ => none, false, 0, []⟩

/-- `get_seq_length(layer_idx)`: the cached sequence length of a layer
(dimension -2 of its key tensor, 0 if the layer has no entry). -/
def CacheState.seqLength (c : CacheState) (li : Nat) : Nat :=
  match c.entries li with
  | none => 0
  | some kv => kv.1.dimPenult

/-- Modelled from the spec: the cache's `usable_length(layer_id,
requested_len)` query, "prior cached length + new tokens" (the rotary
tables are sized to it); the implementation lives outside src/. -/
def CacheState.usableLength (c : CacheState) (newLen li : Nat) : Nat :=
  c.seqLength li + newLen

/-- Modelled from the spec: `read_only(layer_id, position_ids) -> (K, V)`,
the "read-only fetch (existing K/V for a layer)" — it returns the stored
tensors and does not append; the access is recorded in the log.  A layer
with no entry fails (out-of-range indexing in the real store). -/
def CacheState.readOnly (c : CacheState) (li : Nat) (_posIds : Tens ℤ) :
    Except Err (Tens ℚ × Tens ℚ × CacheState) :=
  match c.entries li with
  | none => .error .missingCacheEntry
  | some kv => .ok (kv.1, kv.2, { c with log := c.log ++ [.read li] })

/-- Modelled from the spec: `write_only(K, V, layer_id, rotary_kwargs)`,
the "write-only append (new K/V for a layer)"; appends along the sequence
axis and records the written tensors in the log. -/
def CacheState.writeOnly (c : CacheState) (k v : Tens ℚ) (li : Nat) : CacheState :=
  { c with
    entries := fun j =>
      if j = li then
        some (match c.entries li with
              | none => (k, v)
              | some kv => (catSeq kv.1 k, catSeq kv.2 v))
      else c.entries j
    log := c.log ++ [.write li k v] }

/-- The model configuration (`LlamaSwiftKVConfig`).  `headDim` is
`none` when the config has no `head_dim` attribute, in which case the
attention derives it (source line 50). -/
structure Cfg where
  hiddenSize : Nat
  numAttentionHeads : Nat
  numKeyValueHeads : Nat
  headDim : Option Nat
  numHiddenLayers : Nat
  numKeyValueLayers : Nat
  maxPositionEmbeddings : Nat
  vocabSize : Nat
  attentionBias : Bool
  attnImplementation : String
  ropeTheta : ℚ
  rmsNormEps : ℚ
  attentionDropout : ℚ
deriving DecidableEq

/-- `getattr(config, "head_dim", hidden_size // num_attention_heads)`. -/
def Cfg.getHeadDim (cfg : Cfg) : Nat :=
  cfg.headDim.getD (cfg.hiddenSize / cfg.numAttentionHeads)

/-- `num_heads // num_key_value_heads` (source line 52). -/
def Cfg.numKvGroups (cfg : Cfg) : Nat :=
  cfg.numAttentionHeads / cfg.numKeyValueHeads

/-- External collaborators, carried as opaque-to-the-model functions per
the spec's out-of-scope list: the rotary embedder
`(value, seq_len) -> (cos, sin)`, the paired rotation function
`qeff_apply_rotary_pos_emb`, fp32 softmax, the per-layer MLP and RMSNorm
instances, the embedding lookup, the numeric value of
`1/sqrt(head_dim)`, and the torch predicates used in the mask builder's
backend branches. -/
structure Externals where
  rotaryEmb : Tens ℚ → Nat → Tens ℚ × Tens ℚ
  applyRotPair : Tens ℚ → Tens ℚ → Tens ℚ → Tens ℚ → Tens ℤ → Tens ℚ × Tens ℚ
  softmaxFp32 : Tens ℚ → Tens ℚ
  mlp : Nat → Tens ℚ → Tens ℚ
  inputLayernorm : Nat → Tens ℚ → Tens ℚ
  postAttnLayernorm : Nat → Tens ℚ → Tens ℚ
  embedTokens : Tens ℤ → Tens ℚ
  invSqrtHeadDim : ℚ
  containsZero : Tens ℚ → Bool
  tensorMax : Tens ℚ → ℚ
  ignoreMaskSdpa : Option (Tens ℚ) → Tens ℚ → Nat → Bool
  unmaskUnattended : Tens ℚ → ℚ → Tens ℚ
  deviceIsCuda : Bool

/-- Weights of one `LlamaSwiftKVAttention` module (source lines 44-66):
the four projections and the layer index the module was constructed
with. -/
structure AttnW where
  qProj : Linear
  kProj : Linear
  vProj : Linear
  oProj : Linear
  layerIdx : Option Nat

/-- What `_update_causal_mask` can hand to the attention layers: `None`,
an additive float bias, or the boolean mask produced by
`_create_causal_mask`. -/
inductive MaskOut where
  | noMask
  | additive (t : Tens ℚ)
  | boolean (t : Tens Bool)

/-- Source lines 92-117: the part of `LlamaSwiftKVAttention.forward`
after the cache read.  Takes the reshaped query, the (K, V) fetched from
the cache and the already-resolved `kv_seq_len`; computes rotary tables,
rotates the query (the paired function's key slot receives an empty
placeholder whose rotated result is discarded, so the cached key is used
exactly as stored), replicates K/V heads, forms scaled scores, applies
the mask via `torch.where`, softmaxes, multiplies by values, checks the
output shape and applies the output projection. -/
def attnCore (cfg : Cfg) (ext : Externals) (W : AttnW) (bsz qLen : Nat)
    (queryStates key value : Tens ℚ) (kvSeqLen : Nat) (posIds : Tens ℤ)
    (mask : MaskOut) : Except Err (Tens ℚ) :=
  let cs := ext.rotaryEmb value kvSeqLen
  let queryRot := (ext.applyRotPair queryStates (emptyLike key) cs.1 cs.2 posIds).1
  let keyRep := repeatKv key cfg.numKvGroups
  let valueRep := repeatKv value cfg.numKvGroups
  match queryRot.matmul (keyRep.transpose 2 3) with
  | .error e => .error e
  | .ok aw0 =>
    let aw1 := aw0.scale ext.invSqrtHeadDim
    let awMasked : Except Err (Tens ℚ) :=
      match mask with
      | .noMask => .ok aw1
      | .boolean bm => .ok (whereNeg bm aw1)
      | .additive _ => .error .maskNotBoolean
    match awMasked with
    | .error e => .error e
    | .ok aw2 =>
      let aw3 := ext.softmaxFp32 aw2
      match aw3.matmul valueRep with
      | .error e => .error e
      | .ok attnOut0 =>
        if attnOut0.dims = [bsz, cfg.numAttentionHeads, qLen, cfg.getHeadDim] then
          match (attnOut0.transpose 1 2).view [bsz, qLen, cfg.hiddenSize] with
          | .error e => .error e
          | .ok attnOut1 => .ok (W.oProj.apply attnOut1)
        else .error .attnOutputShape

/-- Source lines 68-119: `LlamaSwiftKVAttention.forward`.  Line 76
(`query, _ = self.q_proj_swiftkv(hidden_states)`) iterates over the
projection output's batch dimension, then line 79 views the unpacked
slice back to a four-dimensional shape; both are embedded as written.
The cache read at line 91 is unconditional, so a `None` cache fails
there if reached.  Returns the (possibly read-logged) cache alongside
the result, mirroring in-place mutation of the shared cache object. -/
def attnForward (cfg : Cfg) (ext : Externals) (W : AttnW) (hidden : Tens ℚ)
    (posIds : Tens ℤ) (past : Option CacheState) (mask : MaskOut) :
    Option CacheState × Except Err (Tens ℚ) :=
  let bsz := hidden.dimAt 0
  let qLen := hidden.dimAt 1
  match unpack2 (W.qProj.apply hidden) with
  | .error e => (past, .error e)
  | .ok qpair =>
    match qpair.1.view [bsz, qLen, cfg.numAttentionHeads, cfg.getHeadDim] with
    | .error e => (past, .error e)
    | .ok qv =>
      let queryStates := qv.transpose 1 2
      match past with
      | some c =>
        match W.layerIdx with
        | none => (past, .error .missingLayerIdx)
        | some li =>
          let kvSeqLen := c.usableLength posIds.dimLast li
          match c.readOnly li posIds with
          | .error e => (past, .error e)
          | .ok kvc =>
            match attnCore cfg ext W bsz qLen queryStates kvc.1 kvc.2.1 kvSeqLen posIds mask with
            | .error e => (some kvc.2.2, .error e)
            | .ok out => (some kvc.2.2, .ok out)
      | none => (none, .error .noneCacheRead)

/-- Source lines 122-154: `LlamaSwiftKVDecoderLayer.forward` — pre-norm
residual wrapping of the SwiftKV attention and the MLP. -/
def swiftKVDecoderLayer (cfg : Cfg) (ext : Externals) (idx : Nat) (W : AttnW)
    (hidden : Tens ℚ) (posIds : Tens ℤ) (c : CacheState) (mask : MaskOut) :
    CacheState × Except Err (Tens ℚ) :=
  let residual := hidden
  let h1 := ext.inputLayernorm idx hidden
  match attnForward cfg ext W h1 posIds (some c) mask with
  | (copt, .error e) => (copt.getD c, .error e)
  | (copt, .ok attnOut) =>
    let h2 := residual.add attnOut
    let h3 := ext.postAttnLayernorm idx h2
    let h4 := ext.mlp idx h3
    (copt.getD c, .ok (h2.add h4))

/-- Source lines 177-185: `_run_swiftkv_layers`, iterating the suffix
decoder layers over an explicit index list (`range(num_key_value_layers,
num_hidden_layers)`); an exception aborts the loop, with the cache as
mutated so far. -/
def runLayersAux (cfg : Cfg) (ext : Externals) (layers : Nat → AttnW)
    (idxs : List Nat) (hidden : Tens ℚ) (posIds : Tens ℤ) (c : CacheState)
    (mask : MaskOut) : CacheState × Except Err (Tens ℚ) :=
  match idxs with
  | [] => (c, .ok hidden)
  | i :: rest =>
    match swiftKVDecoderLayer cfg ext i (layers i) hidden posIds c mask with
    | (cNext, .error e) => (cNext, .error e)
    | (cNext, .ok hNext) => runLayersAux cfg ext layers rest hNext posIds cNext mask

/-- Modelled from the spec: `_create_causal_mask` from
`QEfficient.transformers.modeling_attn_mask_utils` is imported by the
source file but does not live under src/.  Per the spec's mask policy —
"zero out (unmask) any position whose target index is ≤ the
corresponding cache position (already-seen / causally valid), via
comparing target index against the cache position broadcast per query
row" — and matching how the attention consumes the mask
(`torch.where(mask, -10000, scores)`), it is a boolean tensor of shape
(batch, 1, query_len, target_length), `True` (disallowed) exactly at key
indices strictly greater than the query's position id. -/
def createCausalMask (positionIds : Tens ℤ) (targetLength : Nat) : Tens Bool :=
  ⟨[positionIds.dimAt 0, 1, positionIds.dimAt 1, targetLength], fun ix =>
    decide ((ix.getD 3 0 : ℤ) > positionIds.entry [ix.getD 0 0, ix.getD 2 0])⟩

/-- Source lines 232-236: the upper-triangular min-dtype bias, scaled by
the `arange(target) > cache_position` comparison and broadcast to
(batch, 1, seq, target).  In the no-external-mask branch its value is
discarded at line 246. -/
def triangularBias (sequenceLength targetLength : Nat) (minDtype : ℚ)
    (cachePosition : Tens ℤ) (bsz : Nat) : Tens ℚ :=
  let cm0 := fullTens sequenceLength targetLength minDtype
  let cm1 := if sequenceLength ≠ 1 then triu cm0 1 else cm0
  let cm2 : Tens ℚ := ⟨cm1.dims, fun ix =>
    cm1.entry ix * (if (ix.getD 1 0 : ℤ) > cachePosition.entry [ix.getD 0 0] then 1 else 0)⟩
  ⟨[bsz, 1, sequenceLength, targetLength], fun ix => cm2.entry [ix.getD 2 0, ix.getD 3 0]⟩

/-- Source lines 187-259: `LlamaSwiftKVModel._update_causal_mask`.  Line
196 assigns `self.config._attn_implementation = "eager"`, so the
returned config differs from the input; the flash/sdpa branches are kept
as written (their guards re-test the just-assigned field).  With an
external mask the additive triangular+padding bias is produced; with no
external mask the triangular tensor is built and then replaced by
`_create_causal_mask`'s boolean output (line 246).  A malformed 4-D mask
(max > 0) raises. -/
def updateCausalMask (cfg : Cfg) (ext : Externals) (attentionMask : Option (Tens ℚ))
    (inputTensor : Tens ℚ) (cachePosition : Tens ℤ) (positionIds : Tens ℤ)
    (past : Option CacheState) (outputAttentions : Bool) : Cfg × Except Err MaskOut :=
  let cfg2 := { cfg with attnImplementation := "eager" }
  if cfg2.attnImplementation = "flash_attention_2" then
    (cfg2, .ok (match attentionMask with
      | some m => if ext.containsZero m then .additive m else .noMask
      | none => .noMask))
  else
    let pastSeen := match past with | some c => c.seqLength 0 | none => 0
    let usingStaticCache := match past with | some c => c.isStatic | none => false
    if cfg2.attnImplementation = "sdpa" ∧ usingStaticCache = false ∧
       outputAttentions = false ∧
       ext.ignoreMaskSdpa attentionMask inputTensor pastSeen = true then
      (cfg2, .ok .noMask)
    else
      let minDtype := f32Min
      let sequenceLength := inputTensor.dimAt 1
      let targetLength :=
        if usingStaticCache then
          match past with | some c => c.maxCacheLen | none => 0
        else
          match attentionMask with
          | some m => m.dimLast
          | none => pastSeen
      let res : Except Err MaskOut :=
        match attentionMask with
        | some m =>
          if m.dims.length = 4 then
            if ext.tensorMax m ≠ 0 then .error .malformedFourDimMask
            else .ok (.additive m)
          else
            let cm := triangularBias sequenceLength targetLength minDtype
              cachePosition (inputTensor.dimAt 0)
            let maskLength := m.dimLast
            .ok (.additive ⟨cm.dims, fun ix =>
              if ix.getD 3 0 < maskLength ∧
                 cm.entry ix + m.entry [ix.getD 0 0, ix.getD 3 0] = 0
              then minDtype else cm.entry ix⟩)
        | none =>
          let _discarded := triangularBias sequenceLength targetLength minDtype
            cachePosition (inputTensor.dimAt 0)
          .ok (.boolean (createCausalMask positionIds targetLength))
      let applyUnmask : MaskOut → MaskOut := fun r =>
        if cfg2.attnImplementation = "sdpa" ∧ attentionMask.isSome = true ∧
           ext.deviceIsCuda = true ∧ outputAttentions = false then
          match r with
          | .additive t => .additive (ext.unmaskUnattended t minDtype)
          | other => other
        else r
      (cfg2, res.map applyUnmask)

/-- Signature of an external (prefix) `QEffLlamaDecoderLayer.forward`:
hidden states, causal mask, position ids, cache position, cache → new
hidden states and cache (call at source lines 299-310; the class is
imported, not in src/). -/
abbrev PreLayerFn := Tens ℚ → MaskOut → Tens ℤ → Tens ℤ → CacheState → Tens ℚ × CacheState

/-- Source lines 299-310: run the first `num_key_value_layers` standard
decoder layers over an index list, threading hidden states and cache. -/
def preStageAux (preL : Nat → PreLayerFn) (idxs : List Nat) (hidden : Tens ℚ)
    (mask : MaskOut) (posIds cachePos : Tens ℤ) (c : CacheState) :
    Tens ℚ × CacheState :=
  match idxs with
  | [] => (hidden, c)
  | i :: rest =>
    let hc := preL i hidden mask posIds cachePos c
    preStageAux preL rest hc.1 mask posIds cachePos hc.2

/-- The prefix stage of `LlamaSwiftKVModel.forward`: layers
`0 .. num_key_value_layers - 1`. -/
def preStage (cfg : Cfg) (preL : Nat → PreLayerFn) (embeds : Tens ℚ)
    (mask : MaskOut) (posIds cachePos : Tens ℤ) (c : CacheState) :
    Tens ℚ × CacheState :=
  preStageAux preL (List.range cfg.numKeyValueLayers) embeds mask posIds cachePos c

/-- Source lines 320-325: project the shared hidden state through a
suffix layer's own K and V weights and reshape to head layout. -/
def projKV (cfg : Cfg) (W : AttnW) (shared : Tens ℚ) (bsz qLen : Nat) :
    Except Err (Tens ℚ × Tens ℚ) :=
  match (W.kProj.apply shared).view [bsz, qLen, cfg.numKeyValueHeads, cfg.getHeadDim] with
  | .error e => .error e
  | .ok k1 =>
    match (W.vProj.apply shared).view [bsz, qLen, cfg.numKeyValueHeads, cfg.getHeadDim] with
    | .error e => .error e
    | .ok v1 => .ok (k1.transpose 1 2, v1.transpose 1 2)

/-- Source lines 318-342, loop body: project shared state to K/V, read
`kv_seq_len` from the key's shape, check the layer index (the cache is
never `None` here), size the rotary tables to the usable length, rotate
the key only (the paired function's query slot receives an empty
placeholder whose result is discarded) and write (K, V) to the cache. -/
def writeStep (cfg : Cfg) (ext : Externals) (W : AttnW) (shared : Tens ℚ)
    (posIds : Tens ℤ) (bsz qLen : Nat) (c : CacheState) :
    CacheState × Except Err Unit :=
  match projKV cfg W shared bsz qLen with
  | .error e => (c, .error e)
  | .ok kv =>
    let kvLen0 := kv.1.dimPenult
    match W.layerIdx with
    | none => (c, .error .missingLayerIdx)
    | some li =>
      let kvSeqLen := c.usableLength kvLen0 li
      let cs := ext.rotaryEmb kv.2 kvSeqLen
      let keyRot := (ext.applyRotPair (emptyLike shared) kv.1 cs.1 cs.2 posIds).2
      (c.writeOnly keyRot kv.2 li, .ok ())

/-- The shared-projection loop over the suffix layer indices; an
exception aborts the remainder. -/
def writeLoopAux (cfg : Cfg) (ext : Externals) (layers : Nat → AttnW)
    (shared : Tens ℚ) (posIds : Tens ℤ) (bsz qLen : Nat) (idxs : List Nat)
    (c : CacheState) : CacheState × Except Err Unit :=
  match idxs with
  | [] => (c, .ok ())
  | i :: rest =>
    match writeStep cfg ext (layers i) shared posIds bsz qLen c with
    | (c2, .error e) => (c2, .error e)
    | (c2, .ok _) => writeLoopAux cfg ext layers shared posIds bsz qLen rest c2

/-- The suffix layer indices `range(num_key_value_layers,
num_hidden_layers)`. -/
def suffixIdxs (cfg : Cfg) : List Nat :=
  List.range' cfg.numKeyValueLayers (cfg.numHiddenLayers - cfg.numKeyValueLayers)

/-- Four projections of a suffix layer as constructed in
`LlamaSwiftKVModel.__init__`; the layer index is attached by
`mkSuffixAttn` exactly as lines 166-173 pass `layer_idx=idx`. -/
structure SuffixProj where
  qProj : Linear
  kProj : Linear
  vProj : Linear
  oProj : Linear

/-- Build the `AttnW` of suffix layer `idx` (constructed with
`layer_idx=idx`). -/
def mkSuffixAttn (p : Nat → SuffixProj) (idx : Nat) : AttnW :=
  ⟨(p idx).qProj, (p idx).kProj, (p idx).vProj, (p idx).oProj, some idx⟩

/-- Result of a model-level forward: the cache (mutated in place, so
meaningful even when an exception was raised), the config (mutated by
`_update_causal_mask`), and the returned hidden states or the raised
error. -/
structure ModelOut where
  cache : CacheState
  config : Cfg
  result : Except Err (Tens ℚ)

/-- `torch.arange(start, start + len)`. -/
def arangeFrom (start len : Nat) : Tens ℤ :=
  ⟨[len], fun ix => (start + ix.getD 0 0 : ℤ)⟩

/-- `Tensor.unsqueeze(0)`. -/
def Tens.unsqueeze0 (t : Tens α) : Tens α :=
  ⟨1 :: t.dims, fun ix => t.entry (ix.drop 1)⟩

/-- Source lines 290-352, after the causal mask is built: prefix stage,
`norm_swiftkv`, shared-projection write loop, suffix stage.  A raised
exception propagates together with the cache as mutated so far. -/
def modelForwardBody (cfg2 : Cfg) (ext : Externals) (preL : Nat → PreLayerFn)
    (suffix : Nat → SuffixProj) (normSwiftkvFn : Tens ℚ → Tens ℚ)
    (inputsEmbeds : Tens ℚ) (posIds cachePos : Tens ℤ) (cache0 : CacheState)
    (maskE : Except Err MaskOut) : CacheState × Except Err (Tens ℚ) :=
  match maskE with
  | .error e => (cache0, .error e)
  | .ok mask =>
    let preOut := preStage cfg2 preL inputsEmbeds mask posIds cachePos cache0
    let bsz := preOut.1.dimAt 0
    let qLen := preOut.1.dimAt 1
    let shared := normSwiftkvFn preOut.1
    let wl := writeLoopAux cfg2 ext (mkSuffixAttn suffix) shared posIds bsz qLen
      (suffixIdxs cfg2) preOut.2
    match wl.2 with
    | .error e => (wl.1, .error e)
    | .ok _ =>
      runLayersAux cfg2 ext (mkSuffixAttn suffix) (suffixIdxs cfg2)
        preOut.1 posIds wl.1 mask

/-- Source lines 261-352: `LlamaSwiftKVModel.forward`.  `normSwiftkvFn`
and `normFinalFn` are the module's `norm_swiftkv` and `norm` RMSNorm
instances from `__init__` (lines 174-175); note the body never applies
`normFinalFn`, mirroring the source, where `self.norm` is never called.
The legacy-cache export at line 351 is modelled as the cache itself. -/
def modelForward (cfg : Cfg) (ext : Externals) (preL : Nat → PreLayerFn)
    (suffix : Nat → SuffixProj) (normSwiftkvFn normFinalFn : Tens ℚ → Tens ℚ)
    (inputIds : Tens ℤ) (positionIds : Option (Tens ℤ)) (past : Option CacheState) :
    ModelOut :=
  let inputsEmbeds := ext.embedTokens inputIds
  let cache0 := match past with | none => emptyCache | some c => c
  let pastSeen := cache0.seqLength 0
  let cachePos := arangeFrom pastSeen (inputsEmbeds.dimAt 1)
  let posIds := match positionIds with | none => cachePos.unsqueeze0 | some p => p
  let mcfg := updateCausalMask cfg ext none inputsEmbeds cachePos posIds (some cache0) false
  let body := modelForwardBody mcfg.1 ext preL suffix normSwiftkvFn inputsEmbeds
    posIds cachePos cache0 mcfg.2
  { cache := body.1, config := mcfg.1, result := body.2 }

/-- `Tensor.to(torch.int32)` on one element: wrap into
`[-2^31, 2^31)`. -/
def toInt32 (z : ℤ) : ℤ := (z + 2 ^ 31) % 2 ^ 32 - 2 ^ 31

/-- `torch.argmax` over `f 0, …, f (n-1)`, returning the first index
attaining the maximum (0 for an empty range). -/
def argmaxFirst (f : Nat → ℤ) : Nat → Nat
  | 0 => 0
  | 1 => 0
  | n + 2 =>
    let b := argmaxFirst f (n + 1)
    if f (n + 1) > f b then n + 1 else b

/-- Source line 411: `position_ids.to(torch.int32).argmax(1)` for batch
row `b`. -/
def selIdx (posIds : Tens ℤ) (b : Nat) : Nat :=
  argmaxFirst (fun s => toInt32 (posIds.entry [b, s])) (posIds.dimAt 1)

/-- Source lines 411-413: select, per sequence, the hidden state at the
argmax position id (advanced indexing with `arange(batch).view(-1,1)`
and the `keepdim` index, giving shape (batch, 1, hidden)), then project
through `lm_head`. -/
def lmHeadSelect (lmHead : Linear) (hidden : Tens ℚ) (posIds : Tens ℤ) : Tens ℚ :=
  let sel : Tens ℚ := ⟨[posIds.dimAt 0, 1, hidden.dimAt 2], fun ix =>
    hidden.entry [ix.getD 0 0, selIdx posIds (ix.getD 0 0), ix.getD 2 0]⟩
  lmHead.apply sel

/-- Source lines 404-414: `LlamaSwiftKVForCausalLM.forward` — run the
model, then the head selection and vocabulary projection. -/
def causalLMForward (cfg : Cfg) (ext : Externals) (preL : Nat → PreLayerFn)
    (suffix : Nat → SuffixProj) (normSwiftkvFn normFinalFn : Tens ℚ → Tens ℚ)
    (lmHead : Linear) (inputIds : Tens ℤ) (positionIds : Tens ℤ)
    (past : Option CacheState) : ModelOut :=
  let m := modelForward cfg ext preL suffix normSwiftkvFn normFinalFn
    inputIds (some positionIds) past
  match m.result with
  | .error e => { m with result := .error e }
  | .ok hidden => { m with result := .ok (lmHeadSelect lmHead hidden positionIds) }

/-! ### Observation helpers -/

/-- Count the read events of a layer in a cache log. -/
def countReads : List CEvent → Nat → Nat
  | [], _ => 0
  | .read j :: rest, li => (if j = li then 1 else 0) + countReads rest li
  | _ :: rest, li => countReads rest li

/-- Count the write events of a layer in a cache log. -/
def countWrites : List CEvent → Nat → Nat
  | [], _ => 0
  | .write j _ _ :: rest, li => (if j = li then 1 else 0) + countWrites rest li
  | _ :: rest, li => countWrites rest li

/-- Whether a forward result is a raised error. -/
def exceptFailed : Except Err α → Bool
  | .ok _ => false
  | .error _ => true

/-- Whether a mask-builder result is an additive float-bias tensor. -/
def maskIsAdditive : Except Err MaskOut → Bool
  | .ok (.additive _) => true
  | _ => false

/-- Shape of the produced mask, if any. -/
def maskDims : Except Err MaskOut → Option (List Nat)
  | .ok (.additive t) => some t.dims
  | .ok (.boolean t) => some t.dims
  | _ => none

/-- Entry of a boolean mask result at an index. -/
def maskBoolAt : Except Err MaskOut → List Nat → Option Bool
  | .ok (.boolean t), ix => some (t.entry ix)
  | _, _ => none

/-- The V tensor of the single write event a `writeStep` appended past a
given log length, if exactly one was appended. -/
def writeValueOf (r : CacheState × Except Err Unit) (baseLen : Nat) : Option (Tens ℚ) :=
  match r.1.log.drop baseLen with
  | [CEvent.write _ _ v] => some v
  | _ => none

/-! ### Concrete instances for evaluations and witnesses -/

/-- Identity linear layer on `n` features. -/
def linId (n : Nat) : Linear :=
  ⟨n, n, fun i j => if i = j then 1 else 0, fun _ => 0⟩

/-- Trivial instantiation of the external collaborators. -/
def extTriv : Externals where
  rotaryEmb := fun v _ => (v, v)
  applyRotPair := fun q k _ _ _ => (q, k)
  softmaxFp32 := fun t => t
  mlp := fun _ t => t
  inputLayernorm := fun _ t => t
  postAttnLayernorm := fun _ t => t
  embedTokens := fun ids => ⟨ids.dims ++ [1], fun _ => 5⟩
  invSqrtHeadDim := 1
  containsZero := fun _ => false
  tensorMax := fun _ => 0
  ignoreMaskSdpa := fun _ _ _ => false
  unmaskUnattended := fun t _ => t
  deviceIsCuda := false

/-- A minimal config: 2 layers, 1 prefix layer, all widths 1. -/
def cfgTiny : Cfg where
  hiddenSize := 1
  numAttentionHeads := 1
  numKeyValueHeads := 1
  headDim := some 1
  numHiddenLayers := 2
  numKeyValueLayers := 1
  maxPositionEmbeddings := 8
  vocabSize := 1
  attentionBias := false
  attnImplementation := "eager"
  ropeTheta := 10000
  rmsNormEps := 1
  attentionDropout := 0

/-- Single-token position ids `[[0]]`. -/
def posIdsTiny : Tens ℤ := ⟨[1, 1], fun _ => 0⟩

/-- Single-token input ids. -/
def idsTiny : Tens ℤ := ⟨[1, 1], fun _ => 0⟩

/-- A cache populated at every layer with a (1,1,1,1) entry. -/
def cacheTiny : CacheState :=
  ⟨fun _ => some (⟨[1, 1, 1, 1], fun _ => 1⟩, ⟨[1, 1, 1, 1], fun _ => 1⟩), false, 0, []⟩

/-- Attention weights with a defined layer index. -/
def attnWTiny : AttnW := ⟨linId 1, linId 1, linId 1, linId 1, some 1⟩

/-- Attention weights with `layer_idx=None`. -/
def attnWNoIdx : AttnW := ⟨linId 1, linId 1, linId 1, linId 1, none⟩

/-- Identity prefix layers. -/
def preLTriv : Nat → PreLayerFn := fun _ => fun h _ _ _ c => (h, c)

/-- A second, distinct family of prefix layers (multiplies hidden states
by 1), producing the same outputs as `preLTriv` but not the same
function. -/
def preLScale : Nat → PreLayerFn := fun _ => fun h _ _ _ c => (h.scale 1, c)

/-- Identity suffix projections. -/
def sufTiny : Nat → SuffixProj := fun _ => ⟨linId 1, linId 1, linId 1, linId 1⟩

/-- The identity norm. -/
def idT : Tens ℚ → Tens ℚ := fun t => t

/-- The everywhere-zero norm (a stand-in final RMSNorm that visibly
changes its input). -/
def zeroNorm : Tens ℚ → Tens ℚ := fun t => ⟨t.dims, fun _ => 0⟩

/-! ### Helper lemmas -/

lemma drop_of_double_append {α : Type} (base mid fin : List α)
    (h1 : ∃ d, mid = base ++ d) (h2 : ∃ r, fin = mid ++ r) :
    fin.drop base.length = mid.drop base.length ++ fin.drop mid.length := by
  obtain ⟨d, rfl⟩ := h1
  obtain ⟨r, rfl⟩ := h2
  rw [List.append_assoc, List.drop_left, List.drop_left,
    ← List.append_assoc, List.drop_left]

lemma writeStep_log_ext (cfg : Cfg) (ext : Externals) (W : AttnW) (shared : Tens ℚ)
    (posIds : Tens ℤ) (b q : Nat) (c : CacheState) :
    ∃ d, (writeStep cfg ext W shared posIds b q c).1.log = c.log ++ d := by
  unfold writeStep
  split
  · exact ⟨[], (List.append_nil _).symm⟩
  · split
    · exact ⟨[], (List.append_nil _).symm⟩
    · exact ⟨[_], rfl⟩

lemma writeLoopAux_log_ext (cfg : Cfg) (ext : Externals) (layers : Nat → AttnW)
    (shared : Tens ℚ) (posIds : Tens ℤ) (b q : Nat) :
    ∀ (idxs : List Nat) (c : CacheState),
      ∃ d, (writeLoopAux cfg ext layers shared posIds b q idxs c).1.log = c.log ++ d := by
  intro idxs
  induction idxs with
  | nil => exact fun c => ⟨[], (List.append_nil _).symm⟩
  | cons i rest ih =>
    intro c
    obtain ⟨d, hd⟩ := writeStep_log_ext cfg ext (layers i) shared posIds b q c
    unfold writeLoopAux
    split
    · next c2 e heq =>
      exact ⟨d, by rw [← hd, heq]⟩
    · next c2 u heq =>
      obtain ⟨r, hr⟩ := ih c2
      refine ⟨d ++ r, ?_⟩
      rw [hr, show c2 = (writeStep cfg ext (layers i) shared posIds b q c).1 from by
        rw [heq], hd, List.append_assoc]

lemma writeStep_congr (cfg : Cfg) (ext : Externals) (W : AttnW) (shared : Tens ℚ)
    (posIds : Tens ℤ) (b q : Nat) (c₁ c₂ : CacheState) (li : Nat)
    (hli : W.layerIdx = some li) (he : c₁.entries li = c₂.entries li) :
    ((writeStep cfg ext W shared posIds b q c₁).1.log.drop c₁.log.length
       = (writeStep cfg ext W shared posIds b q c₂).1.log.drop c₂.log.length)
    ∧ (writeStep cfg ext W shared posIds b q c₁).2
        = (writeStep cfg ext W shared posIds b q c₂).2
    ∧ ∀ j, c₁.entries j = c₂.entries j →
        (writeStep cfg ext W shared posIds b q c₁).1.entries j
          = (writeStep cfg ext W shared posIds b q c₂).1.entries j := by
  have hseq : c₁.seqLength li = c₂.seqLength li := by
    unfold CacheState.seqLength; rw [he]
  unfold writeStep
  cases hp : projKV cfg W shared b q with
  | error e =>
    refine ⟨by rw [List.drop_length, List.drop_length], rfl, fun j hj => hj⟩
  | ok kv =>
    rw [hli]
    have hus : c₁.usableLength kv.1.dimPenult li = c₂.usableLength kv.1.dimPenult li := by
      unfold CacheState.usableLength; rw [hseq]
    simp only
    rw [hus]
    unfold CacheState.writeOnly
    refine ⟨by simp [List.drop_left], by trivial, fun j hj => ?_⟩
    simp only
    by_cases hjl : j = li
    · subst hjl; rw [he]
    · simp [hjl, hj]

lemma writeLoopAux_congr (cfg : Cfg) (ext : Externals) (layers : Nat → AttnW)
    (posIds : Tens ℤ) (b q : Nat) :
    ∀ (idxs : List Nat) (shared : Tens ℚ) (c₁ c₂ : CacheState),
      (∀ i ∈ idxs, (layers i).layerIdx = some i) →
      (∀ i ∈ idxs, c₁.entries i = c₂.entries i) →
      ((writeLoopAux cfg ext layers shared posIds b q idxs c₁).1.log.drop c₁.log.length
        = (writeLoopAux cfg ext layers shared posIds b q idxs c₂).1.log.drop c₂.log.length)
      ∧ (writeLoopAux cfg ext layers shared posIds b q idxs c₁).2
        = (writeLoopAux cfg ext layers shared posIds b q idxs c₂).2 := by
  intro idxs
  induction idxs with
  | nil =>
    intro shared c₁ c₂ _ _
    exact ⟨by simp [writeLoopAux, List.drop_length], rfl⟩
  | cons i rest ih =>
    intro shared c₁ c₂ hL he
    have hstep := writeStep_congr cfg ext (layers i) shared posIds b q c₁ c₂ i
      (hL i (List.mem_cons_self i rest)) (he i (List.mem_cons_self i rest))
    have hrec := ih shared (writeStep cfg ext (layers i) shared posIds b q c₁).1
      (writeStep cfg ext (layers i) shared posIds b q c₂).1
      (fun j hj => hL j (List.mem_cons_of_mem i hj))
      (fun j hj => hstep.2.2 j (he j (List.mem_cons_of_mem i hj)))
    have hfull₁ := drop_of_double_append c₁.log
      (writeStep cfg ext (layers i) shared posIds b q c₁).1.log
      (writeLoopAux cfg ext layers shared posIds b q rest
        (writeStep cfg ext (layers i) shared posIds b q c₁).1).1.log
      (writeStep_log_ext cfg ext (layers i) shared posIds b q c₁)
      (writeLoopAux_log_ext cfg ext layers shared posIds b q rest _)
    have hfull₂ := drop_of_double_append c₂.log
      (writeStep cfg ext (layers i) shared posIds b q c₂).1.log
      (writeLoopAux cfg ext layers shared posIds b q rest
        (writeStep cfg ext (layers i) shared posIds b q c₂).1).1.log
      (writeStep_log_ext cfg ext (layers i) shared posIds b q c₂)
      (writeLoopAux_log_ext cfg ext layers shared posIds b q rest _)
    unfold writeLoopAux
    cases hr₁ : writeStep cfg ext (layers i) shared posIds b q c₁ with
    | mk s₁c s₁r =>
      cases hr₂ : writeStep cfg ext (layers i) shared posIds b q c₂ with
      | mk s₂c s₂r =>
        have hr2eq : s₁r = s₂r := by
          have := hstep.2.1; rw [hr₁, hr₂] at this; exact this
        cases s₁r with
        | error e =>
          subst hr2eq
          have hd := hstep.1
          rw [hr₁, hr₂] at hd
          exact ⟨hd, rfl⟩
        | ok u =>
          subst hr2eq
          simp only
          rw [hr₁] at hfull₁
          rw [hr₂] at hfull₂
          have hd := hstep.1
          rw [hr₁, hr₂] at hd
          have hrecd := hrec.1
          rw [hr₁, hr₂] at hrecd
          have hrec2 := hrec.2
          rw [hr₁, hr₂] at hrec2
          exact ⟨by rw [hfull₁, hfull₂, hd, hrecd], hrec2⟩

lemma argmaxFirst_lt (f : Nat → ℤ) : ∀ n, 0 < n → argmaxFirst f n < n := by
  intro n
  induction n with
  | zero => intro h; exact absurd h (by omega)
  | succ m ih =>
    intro _
    cases m with
    | zero => exact Nat.zero_lt_one
    | succ k =>
      unfold argmaxFirst
      show (if f (k + 1) > f (argmaxFirst f (k + 1)) then k + 1
        else argmaxFirst f (k + 1)) < k + 1 + 1
      split
      · omega
      · exact Nat.lt_succ_of_lt (ih (Nat.succ_pos k))

lemma argmaxFirst_le (f : Nat → ℤ) : ∀ n i, i < n → f i ≤ f (argmaxFirst f n) := by
  intro n
  induction n with
  | zero => intro i h; exact absurd h (by omega)
  | succ m ih =>
    intro i hi
    cases m with
    | zero =>
      have : i = 0 := by omega
      subst this
      exact le_refl _
    | succ k =>
      unfold argmaxFirst
      show f i ≤ f (if f (k + 1) > f (argmaxFirst f (k + 1)) then k + 1
        else argmaxFirst f (k + 1))
      split
      · next hgt =>
        rcases Nat.lt_succ_iff_lt_or_eq.mp hi with h | h
        · exact le_trans (ih i h) (le_of_lt hgt)
        · subst h; exact le_refl _
      · next hgt =>
        rcases Nat.lt_succ_iff_lt_or_eq.mp hi with h | h
        · exact ih i h
        · subst h; exact le_of_not_lt hgt

lemma toInt32_eq_self (z : ℤ) (h1 : -(2 ^ 31) ≤ z) (h2 : z < 2 ^ 31) :
    toInt32 z = z := by
  unfold toInt32
  have : (z + 2 ^ 31) % 2 ^ 32 = z + 2 ^ 31 := Int.emod_eq_of_lt (by omega) (by omega)
  omega

lemma projKV_key_dimPenult (cfg : Cfg) (W : AttnW) (shared : Tens ℚ) (b q : Nat)
    (kv : Tens ℚ × Tens ℚ) (hp : projKV cfg W shared b q = .ok kv) :
    kv.1.dimPenult = q := by
  unfold projKV at hp
  cases hk : (W.kProj.apply shared).view [b, q, cfg.numKeyValueHeads, cfg.getHeadDim] with
  | error e => rw [hk] at hp; exact absurd hp (by simp)
  | ok k1 =>
    rw [hk] at hp
    cases hv : (W.vProj.apply shared).view [b, q, cfg.numKeyValueHeads, cfg.getHeadDim] with
    | error e => rw [hv] at hp; exact absurd hp (by simp)
    | ok v1 =>
      rw [hv] at hp
      have hkv : (k1.transpose 1 2, v1.transpose 1 2) = kv := by
        injection hp
      have hdims : k1.dims = [b, q, cfg.numKeyValueHeads, cfg.getHeadDim] := by
        unfold Tens.view at hk
        split at hk
        · injection hk with h
          rw [← h]
        · exact absurd hk (by simp)
      rw [← hkv]
      show (swapIdx k1.dims 1 2).dropLast.getLast?.getD 0 = q
      rw [hdims]
      rfl

lemma updateCausalMask_config (cfg : Cfg) (ext : Externals)
    (attentionMask : Option (Tens ℚ)) (inputTensor : Tens ℚ)
    (cachePosition positionIds : Tens ℤ) (past : Option CacheState)
    (outputAttentions : Bool) :
    (updateCausalMask cfg ext attentionMask inputTensor cachePosition positionIds
        past outputAttentions).1
      = { cfg with attnImplementation := "eager" } := rfl

/-! ### Further concrete inputs for the claim evaluations -/

/-- A config with no suffix layers (`num_key_value_layers =
num_hidden_layers = 1`), on which the forward completes. -/
def cfgNoSuffix : Cfg := { cfgTiny with numHiddenLayers := 1 }

/-- A config whose `_attn_implementation` is `"sdpa"` before any call. -/
def cfgSdpa : Cfg := { cfgTiny with attnImplementation := "sdpa" }

/-- Concrete run for C3: one prefix layer, one suffix layer, one token,
fresh cache. -/
def c3run : ModelOut :=
  modelForward cfgTiny extTriv preLTriv sufTiny idT idT idsTiny (some posIdsTiny) none

/-- Concrete run for C6: no suffix layers, constant-5 embeddings, and an
all-zero final norm; the forward succeeds and its output shows whether
the final norm was applied. -/
def c6run : ModelOut :=
  modelForward cfgNoSuffix extTriv preLTriv sufTiny idT zeroNorm idsTiny
    (some posIdsTiny) none

/-- Prefill scenario of C5: 5 new tokens, positions 0..4, an empty
fixed-capacity (static) cache of maximum length 5, so `target_length =
5` with cache positions starting at 0, and no external mask. -/
def input5 : Tens ℚ := ⟨[1, 5, 1], fun _ => 0⟩

/-- Position ids `[[0, 1, 2, 3, 4]]`. -/
def pids5 : Tens ℤ := ⟨[1, 5], fun ix => (ix.getD 1 0 : ℤ)⟩

/-- Empty static cache with maximum length 5. -/
def cache5static : CacheState := ⟨fun _ => none, true, 5, []⟩

/-- The mask produced in the C5 prefill scenario. -/
def c5run : Except Err MaskOut :=
  (updateCausalMask cfgTiny extTriv none input5 (arangeFrom 0 5) pids5
      (some cache5static) false).2

/-- Decode scenario of C5: a dynamic cache with 5 tokens already seen,
one new token at position 5, no external mask. -/
def cache5dyn : CacheState :=
  ⟨fun li => if li = 0 then some (⟨[1, 1, 5, 1], fun _ => 0⟩, ⟨[1, 1, 5, 1], fun _ => 0⟩)
             else none, false, 0, []⟩

/-- One-token decode input. -/
def input5decode : Tens ℚ := ⟨[1, 1, 1], fun _ => 0⟩

/-- Position ids `[[5]]`. -/
def pids5decode : Tens ℤ := ⟨[1, 1], fun _ => 5⟩

/-- The mask produced in the C5 decode scenario. -/
def c5decodeRun : Except Err MaskOut :=
  (updateCausalMask cfgTiny extTriv none input5decode (arangeFrom 5 1) pids5decode
      (some cache5dyn) false).2

/-! ### Claim theorems -/

/-- C2: the claim states that for every (batch, sequence, hidden_size)
hidden state, with position ids, a populated cache and a causal mask,
SwiftKV attention projects queries from it and returns an output of
shape (batch, sequence, hidden_size).  The code cannot: line 76
(`query, _ = self.q_proj_swiftkv(hidden_states)`) tuple-unpacks the
projection output along the batch dimension, raising for every batch
size other than 2, and for batch 2 the `view(bsz, q_len, heads,
head_dim)` at line 79 fails on element count.  Both failure modes are
evaluated here on well-formed inputs with a populated cache and a
defined layer index. -/
theorem c2_attn_forward_dies_at_query_unpack :
    (attnForward cfgTiny extTriv attnWTiny ⟨[1, 1, 1], fun _ => 3⟩ posIdsTiny
        (some cacheTiny) MaskOut.noMask).2 = .error .tupleUnpackArity
    ∧ (attnForward cfgTiny extTriv attnWTiny ⟨[2, 1, 1], fun _ => 3⟩ posIdsTiny
        (some cacheTiny) MaskOut.noMask).2 = .error .viewSizeMismatch :=
  ⟨rfl, rfl⟩

/-- C3: the claim states that each suffix layer's cache entry is written
exactly once and read exactly once by that layer's attention.  On a
concrete forward (1 prefix layer, 1 suffix layer, 1 token) the suffix
entry is written once by the shared-projection loop, but the attention
dies at the line-76 query unpack before its `read_only` call, so the
read count is 0 and the forward raises. -/
theorem c3_suffix_entry_written_once_but_never_read :
    countWrites c3run.cache.log 1 = 1
    ∧ countReads c3run.cache.log 1 = 0
    ∧ c3run.result = .error .tupleUnpackArity :=
  ⟨rfl, rfl, rfl⟩

/-- C5 counterexample: with no external mask the builder's output for
the 5-token prefill scenario is not an additive tensor at all — the
min-dtype upper-triangular tensor built at lines 232-236 is discarded at
line 246 in favour of `_create_causal_mask`'s boolean mask, whose entry
above the diagonal is `true`, not the dtype minimum. -/
theorem c5_counterexample_mask_is_boolean :
    maskIsAdditive c5run = false ∧ maskBoolAt c5run [0, 0, 0, 1] = some true :=
  ⟨rfl, rfl⟩

/-- C5 amended: with no external mask the builder returns the boolean
mask of `_create_causal_mask` (`true` = disallowed): for
sequence_length 5, target_length 5 and positions 0..4 it is `true`
strictly above the diagonal and `false` elsewhere, and for a
single-token decode step at position 5 over 5 cached positions no
position is masked. -/
theorem c5_amended_boolean_causal_mask :
    maskDims c5run = some [1, 1, 5, 5]
    ∧ ((List.range 5).all fun qi => (List.range 5).all fun ki =>
        maskBoolAt c5run [0, 0, qi, ki] == some (decide (ki > qi))) = true
    ∧ maskDims c5decodeRun = some [1, 1, 1, 5]
    ∧ ((List.range 5).all fun ki =>
        maskBoolAt c5decodeRun [0, 0, 0, ki] == some false) = true :=
  ⟨rfl, by decide, rfl, by decide⟩

/-- C6: the claim (and the spec's data flow) says the final hidden
states pass through the final-output norm (`self.norm`, line 174, with
parameters distinct from `norm_swiftkv`) before reaching the head.  The
forward never calls it: the model output is invariant under every
replacement of the final norm, and on a concrete run (constant-5
embeddings, all-zero final norm) the returned entry is 5, the
un-normalized prefix output, where the final norm would have produced
0. -/
theorem c6_final_norm_never_applied :
    (∀ (cfg : Cfg) (ext : Externals) (preL : Nat → PreLayerFn)
        (suffix : Nat → SuffixProj) (ns f g : Tens ℚ → Tens ℚ)
        (ids : Tens ℤ) (pos : Option (Tens ℤ)) (past : Option CacheState),
      modelForward cfg ext preL suffix ns f ids pos past
        = modelForward cfg ext preL suffix ns g ids pos past)
    ∧ c6run.result.map (fun t => t.entry [0, 0, 0]) = .ok 5
    ∧ c6run.result.map (fun t => (zeroNorm t).entry [0, 0, 0]) = .ok 0 :=
  ⟨fun _ _ _ _ _ _ _ _ _ _ => rfl, rfl, rfl⟩

/-- C7: the claim states the attention forward raises exactly in two
situations — cache supplied with undefined layer index, or attention
output shape mismatch — and otherwise raises no error.  In the code both
checks are unreachable: the query unpack at line 76 raises first on
every input.  Evaluated on an input satisfying all of the claim's
"otherwise" conditions (populated cache, defined layer index, correct
shapes) the forward still raises, and with `layer_idx=None` it raises
the unpack error, not the documented layer-index error. -/
theorem c7_error_checks_unreachable :
    (attnForward cfgTiny extTriv attnWTiny ⟨[1, 1, 1], fun _ => 7⟩ posIdsTiny
        (some cacheTiny) MaskOut.noMask).2 = .error .tupleUnpackArity
    ∧ (attnForward cfgTiny extTriv attnWNoIdx ⟨[1, 1, 1], fun _ => 7⟩ posIdsTiny
        (some cacheTiny) MaskOut.noMask).2 = .error .tupleUnpackArity
    ∧ Err.tupleUnpackArity ≠ Err.missingLayerIdx :=
  ⟨rfl, rfl, by decide⟩

/-- C9 counterexample: the claim states no operation of the model
modifies any field of its config.  `_update_causal_mask` assigns
`self.config._attn_implementation = "eager"` (line 196): starting from a
config with `_attn_implementation = "sdpa"`, the config after the call
differs from the config before. -/
theorem c9_counterexample_config_mutated :
    (updateCausalMask cfgSdpa extTriv none ⟨[1, 1, 1], fun _ => 0⟩ (arangeFrom 0 1)
        posIdsTiny (some emptyCache) false).1 ≠ cfgSdpa := by
  decide

/-- C9 amended: the only config mutation anywhere in the model is
`_update_causal_mask` (reached on every forward) setting
`_attn_implementation` to `"eager"`; every other field — including all
the architecture parameters the spec lists — is preserved by both the
mask builder and the forward pass. -/
theorem c9_only_attn_implementation_mutated :
    (∀ (cfg : Cfg) (ext : Externals) (am : Option (Tens ℚ)) (it : Tens ℚ)
        (cp pi : Tens ℤ) (past : Option CacheState) (oa : Bool),
      (updateCausalMask cfg ext am it cp pi past oa).1
        = { cfg with attnImplementation := "eager" })
    ∧ ∀ (cfg : Cfg) (ext : Externals) (preL : Nat → PreLayerFn)
        (suffix : Nat → SuffixProj) (ns nf : Tens ℚ → Tens ℚ)
        (ids : Tens ℤ) (pos : Option (Tens ℤ)) (past : Option CacheState),
      (modelForward cfg ext preL suffix ns nf ids pos past).config
        = { cfg with attnImplementation := "eager" } := by
  exact ⟨fun cfg ext am it cp pi past oa => rfl,
    fun cfg ext preL suffix ns nf ids pos past => rfl⟩

/-- C10 counterexample: the claim states that every call with
`past_key_value = None` reaches the unconditional cache read at line 91
and fails there.  On a batch-1 input the forward fails earlier, at the
line-76 query unpack, with a different error, never reaching the read. -/
theorem c10_counterexample_fails_before_cache_read :
    (attnForward cfgTiny extTriv attnWTiny ⟨[1, 1, 1], fun _ => 2⟩ posIdsTiny
        none MaskOut.noMask).2 = .error .tupleUnpackArity
    ∧ Err.tupleUnpackArity ≠ Err.noneCacheRead :=
  ⟨rfl, by decide⟩

/-- C10 amended: a non-`None` cache is indeed an unstated precondition —
for every call of the attention forward with `past_key_value = None` the
call fails (at the query unpack, the view, or, past those, at the
guard-less `read_only` on `None`); no cache-less path exists. -/
theorem c10_none_cache_always_fails (cfg : Cfg) (ext : Externals) (W : AttnW)
    (hidden : Tens ℚ) (posIds : Tens ℤ) (mask : MaskOut) :
    exceptFailed (attnForward cfg ext W hidden posIds none mask).2 = true := by
  unfold attnForward
  dsimp only
  cases unpack2 (W.qProj.apply hidden) with
  | error e => rfl
  | ok qpair =>
    dsimp only
    cases qpair.1.view [hidden.dimAt 0, hidden.dimAt 1, cfg.numAttentionHeads,
        cfg.getHeadDim] with
    | error e => rfl
    | ok qv => rfl

/-- C1: the K and V written to the cache for each suffix layer are
functions of only the shared normalized hidden state and that layer's
own projection weights (beyond the position ids and that layer's own
prior cached length, which size the rotary tables): two forwards that
differ only in their prefix layers, but agree on the shared normalized
hidden state, on the prefix output's shape, and on the suffix-layer
cache entries left by the prefix stage, append identical write events
(identical K and V payloads, layer by layer) in the shared-projection
loop. -/
theorem c1_suffix_kv_depend_only_on_shared_state (cfg : Cfg) (ext : Externals)
    (preL₁ preL₂ : Nat → PreLayerFn) (suffix : Nat → SuffixProj)
    (ns : Tens ℚ → Tens ℚ) (embeds : Tens ℚ) (mask : MaskOut)
    (posIds cachePos : Tens ℤ) (c0 : CacheState)
    (hShared : ns (preStage cfg preL₁ embeds mask posIds cachePos c0).1
             = ns (preStage cfg preL₂ embeds mask posIds cachePos c0).1)
    (hDims : (preStage cfg preL₁ embeds mask posIds cachePos c0).1.dims
           = (preStage cfg preL₂ embeds mask posIds cachePos c0).1.dims)
    (hEntries : ∀ i ∈ suffixIdxs cfg,
        (preStage cfg preL₁ embeds mask posIds cachePos c0).2.entries i
      = (preStage cfg preL₂ embeds mask posIds cachePos c0).2.entries i) :
    (writeLoopAux cfg ext (mkSuffixAttn suffix)
        (ns (preStage cfg preL₁ embeds mask posIds cachePos c0).1) posIds
        ((preStage cfg preL₁ embeds mask posIds cachePos c0).1.dimAt 0)
        ((preStage cfg preL₁ embeds mask posIds cachePos c0).1.dimAt 1)
        (suffixIdxs cfg)
        (preStage cfg preL₁ embeds mask posIds cachePos c0).2).1.log.drop
      (preStage cfg preL₁ embeds mask posIds cachePos c0).2.log.length
    = (writeLoopAux cfg ext (mkSuffixAttn suffix)
        (ns (preStage cfg preL₂ embeds mask posIds cachePos c0).1) posIds
        ((preStage cfg preL₂ embeds mask posIds cachePos c0).1.dimAt 0)
        ((preStage cfg preL₂ embeds mask posIds cachePos c0).1.dimAt 1)
        (suffixIdxs cfg)
        (preStage cfg preL₂ embeds mask posIds cachePos c0).2).1.log.drop
      (preStage cfg preL₂ embeds mask posIds cachePos c0).2.log.length := by
  have hd0 : (preStage cfg preL₁ embeds mask posIds cachePos c0).1.dimAt 0
      = (preStage cfg preL₂ embeds mask posIds cachePos c0).1.dimAt 0 := by
    unfold Tens.dimAt; rw [hDims]
  have hd1 : (preStage cfg preL₁ embeds mask posIds cachePos c0).1.dimAt 1
      = (preStage cfg preL₂ embeds mask posIds cachePos c0).1.dimAt 1 := by
    unfold Tens.dimAt; rw [hDims]
  rw [hShared, hd0, hd1]
  exact (writeLoopAux_congr cfg ext (mkSuffixAttn suffix) posIds _ _
    (suffixIdxs cfg) _ _ _ (fun i _ => rfl) hEntries).1

/-- Constant embeddings tensor used by the C1 witness. -/
def embedsT : Tens ℚ := ⟨[1, 1, 1], fun _ => 5⟩

/-- Witness for C1: instantiated with two genuinely different prefix
families (`preLTriv` and `preLScale`) whose outputs coincide, a zero
swiftkv norm and the empty cache; all three hypotheses hold
definitionally here. -/
theorem c1_witness :
    (writeLoopAux cfgTiny extTriv (mkSuffixAttn sufTiny)
        (zeroNorm (preStage cfgTiny preLTriv embedsT MaskOut.noMask posIdsTiny
          (arangeFrom 0 1) emptyCache).1) posIdsTiny
        ((preStage cfgTiny preLTriv embedsT MaskOut.noMask posIdsTiny
          (arangeFrom 0 1) emptyCache).1.dimAt 0)
        ((preStage cfgTiny preLTriv embedsT MaskOut.noMask posIdsTiny
          (arangeFrom 0 1) emptyCache).1.dimAt 1)
        (suffixIdxs cfgTiny)
        (preStage cfgTiny preLTriv embedsT MaskOut.noMask posIdsTiny
          (arangeFrom 0 1) emptyCache).2).1.log.drop
      (preStage cfgTiny preLTriv embedsT MaskOut.noMask posIdsTiny
          (arangeFrom 0 1) emptyCache).2.log.length
    = (writeLoopAux cfgTiny extTriv (mkSuffixAttn sufTiny)
        (zeroNorm (preStage cfgTiny preLScale embedsT MaskOut.noMask posIdsTiny
          (arangeFrom 0 1) emptyCache).1) posIdsTiny
        ((preStage cfgTiny preLScale embedsT MaskOut.noMask posIdsTiny
          (arangeFrom 0 1) emptyCache).1.dimAt 0)
        ((preStage cfgTiny preLScale embedsT MaskOut.noMask posIdsTiny
          (arangeFrom 0 1) emptyCache).1.dimAt 1)
        (suffixIdxs cfgTiny)
        (preStage cfgTiny preLScale embedsT MaskOut.noMask posIdsTiny
          (arangeFrom 0 1) emptyCache).2).1.log.drop
      (preStage cfgTiny preLScale embedsT MaskOut.noMask posIdsTiny
          (arangeFrom 0 1) emptyCache).2.log.length :=
  c1_suffix_kv_depend_only_on_shared_state cfgTiny extTriv preLTriv preLScale
    sufTiny zeroNorm embedsT MaskOut.noMask posIdsTiny (arangeFrom 0 1) emptyCache
    rfl rfl (fun _ _ => rfl)

/-- C4: rotary application is asymmetric, stated as dependence facts on
the embedded pipeline.  (1) The attention core's result depends on the
paired rotation function only through its query output — the key slot
(fed an empty placeholder) is discarded, so the cached key is used as
stored.  (2) The attention core depends on the rotary-table function
only through its value at the `kv_seq_len` it is given (which
`attnForward` resolves to the cache's usable length).  (3) The
shared-projection write step depends on the paired rotation only through
its key output — the query slot (fed an empty placeholder) is
discarded.  (4) The write step depends on the rotary tables only through
their value at that layer's usable cache length.  (5) The V payload
written is independent of both rotary functions — the value is written
unrotated. -/
theorem c4_rotary_applied_asymmetrically :
    (∀ (cfg : Cfg) (ext : Externals) (f₁ f₂ : Tens ℚ → Tens ℚ → Tens ℚ → Tens ℚ → Tens ℤ → Tens ℚ × Tens ℚ)
        (W : AttnW) (bsz qLen : Nat) (queryStates key value : Tens ℚ)
        (kvSeqLen : Nat) (posIds : Tens ℤ) (mask : MaskOut),
      (∀ qs c s p, (f₁ qs (emptyLike key) c s p).1 = (f₂ qs (emptyLike key) c s p).1) →
      attnCore cfg { ext with applyRotPair := f₁ } W bsz qLen queryStates key value kvSeqLen posIds mask
        = attnCore cfg { ext with applyRotPair := f₂ } W bsz qLen queryStates key value kvSeqLen posIds mask)
    ∧ (∀ (cfg : Cfg) (ext : Externals) (g₁ g₂ : Tens ℚ → Nat → Tens ℚ × Tens ℚ)
        (W : AttnW) (bsz qLen : Nat) (queryStates key value : Tens ℚ)
        (kvSeqLen : Nat) (posIds : Tens ℤ) (mask : MaskOut),
      g₁ value kvSeqLen = g₂ value kvSeqLen →
      attnCore cfg { ext with rotaryEmb := g₁ } W bsz qLen queryStates key value kvSeqLen posIds mask
        = attnCore cfg { ext with rotaryEmb := g₂ } W bsz qLen queryStates key value kvSeqLen posIds mask)
    ∧ (∀ (cfg : Cfg) (ext : Externals) (f₁ f₂ : Tens ℚ → Tens ℚ → Tens ℚ → Tens ℚ → Tens ℤ → Tens ℚ × Tens ℚ)
        (W : AttnW) (shared : Tens ℚ) (posIds : Tens ℤ) (b q : Nat) (c : CacheState),
      (∀ k cs sn p, (f₁ (emptyLike shared) k cs sn p).2 = (f₂ (emptyLike shared) k cs sn p).2) →
      writeStep cfg { ext with applyRotPair := f₁ } W shared posIds b q c
        = writeStep cfg { ext with applyRotPair := f₂ } W shared posIds b q c)
    ∧ (∀ (cfg : Cfg) (ext : Externals) (g₁ g₂ : Tens ℚ → Nat → Tens ℚ × Tens ℚ)
        (W : AttnW) (shared : Tens ℚ) (posIds : Tens ℤ) (b q : Nat) (c : CacheState)
        (li : Nat), W.layerIdx = some li →
      (∀ v, g₁ v (c.usableLength q li) = g₂ v (c.usableLength q li)) →
      writeStep cfg { ext with rotaryEmb := g₁ } W shared posIds b q c
        = writeStep cfg { ext with rotaryEmb := g₂ } W shared posIds b q c)
    ∧ (∀ (cfg : Cfg) (ext : Externals)
        (f₁ f₂ : Tens ℚ → Tens ℚ → Tens ℚ → Tens ℚ → Tens ℤ → Tens ℚ × Tens ℚ)
        (g₁ g₂ : Tens ℚ → Nat → Tens ℚ × Tens ℚ)
        (W : AttnW) (shared : Tens ℚ) (posIds : Tens ℤ) (b q : Nat) (c : CacheState),
      writeValueOf (writeStep cfg { ext with applyRotPair := f₁, rotaryEmb := g₁ }
          W shared posIds b q c) c.log.length
        = writeValueOf (writeStep cfg { ext with applyRotPair := f₂, rotaryEmb := g₂ }
          W shared posIds b q c) c.log.length) := by
  refine ⟨?_, ?_, ?_, ?_, ?_⟩
  · intro cfg ext f₁ f₂ W bsz qLen queryStates key value kvSeqLen posIds mask h
    unfold attnCore
    dsimp only
    rw [h]
  · intro cfg ext g₁ g₂ W bsz qLen queryStates key value kvSeqLen posIds mask h
    unfold attnCore
    dsimp only
    rw [h]
  · intro cfg ext f₁ f₂ W shared posIds b q c h
    unfold writeStep
    cases projKV cfg W shared b q with
    | error e => rfl
    | ok kv =>
      cases W.layerIdx with
      | none => rfl
      | some li =>
        dsimp only
        rw [h]
  · intro cfg ext g₁ g₂ W shared posIds b q c li hli h
    unfold writeStep
    cases hp : projKV cfg W shared b q with
    | error e => rfl
    | ok kv =>
      rw [hli]
      dsimp only
      rw [projKV_key_dimPenult cfg W shared b q kv hp, h]
  · intro cfg ext f₁ f₂ g₁ g₂ W shared posIds b q c
    unfold writeStep
    cases projKV cfg W shared b q with
    | error e =>
      unfold writeValueOf
      rw [List.drop_length]
    | ok kv =>
      cases W.layerIdx with
      | none =>
        unfold writeValueOf
        rw [List.drop_length]
      | some li =>
        unfold writeValueOf CacheState.writeOnly
        dsimp only
        rw [List.drop_left, List.drop_left]

/-- Witness for C4: each dependence fact applied at concrete inputs —
pair functions that agree on the query (resp. key) output but differ on
the discarded slot, and table functions that agree at the usable length
but differ elsewhere. -/
theorem c4_witness :
    (attnCore cfgTiny { extTriv with applyRotPair := fun qs k c s p => (qs, k) }
        attnWTiny 1 1 embedsT embedsT embedsT 1 posIdsTiny MaskOut.noMask
      = attnCore cfgTiny { extTriv with applyRotPair := fun qs k c s p => (qs, emptyLike k) }
        attnWTiny 1 1 embedsT embedsT embedsT 1 posIdsTiny MaskOut.noMask)
    ∧ (attnCore cfgTiny { extTriv with rotaryEmb := fun v n => (v, v) }
        attnWTiny 1 1 embedsT embedsT embedsT 1 posIdsTiny MaskOut.noMask
      = attnCore cfgTiny { extTriv with rotaryEmb := fun v n => if n = 99 then (emptyLike v, emptyLike v) else (v, v) }
        attnWTiny 1 1 embedsT embedsT embedsT 1 posIdsTiny MaskOut.noMask)
    ∧ (writeStep cfgTiny { extTriv with applyRotPair := fun qs k c s p => (qs, k) }
        attnWTiny embedsT posIdsTiny 1 1 emptyCache
      = writeStep cfgTiny { extTriv with applyRotPair := fun qs k c s p => (emptyLike qs, k) }
        attnWTiny embedsT posIdsTiny 1 1 emptyCache)
    ∧ (writeStep cfgTiny { extTriv with rotaryEmb := fun v n => (v, v) }
        attnWTiny embedsT posIdsTiny 1 1 emptyCache
      = writeStep cfgTiny { extTriv with rotaryEmb := fun v n => if n = 99 then (emptyLike v, emptyLike v) else (v, v) }
        attnWTiny embedsT posIdsTiny 1 1 emptyCache)
    ∧ writeValueOf (writeStep cfgTiny { extTriv with applyRotPair := fun qs k c s p => (k, qs), rotaryEmb := fun v n => (emptyLike v, v) }
        attnWTiny embedsT posIdsTiny 1 1 emptyCache) emptyCache.log.length
      = writeValueOf (writeStep cfgTiny { extTriv with applyRotPair := fun qs k c s p => (qs, k), rotaryEmb := fun v n => (v, v) }
        attnWTiny embedsT posIdsTiny 1 1 emptyCache) emptyCache.log.length := by
  refine ⟨c4_rotary_applied_asymmetrically.1 cfgTiny extTriv _ _ attnWTiny 1 1
      embedsT embedsT embedsT 1 posIdsTiny MaskOut.noMask (fun qs c s p => rfl),
    c4_rotary_applied_asymmetrically.2.1 cfgTiny extTriv _ _ attnWTiny 1 1
      embedsT embedsT embedsT 1 posIdsTiny MaskOut.noMask rfl,
    c4_rotary_applied_asymmetrically.2.2.1 cfgTiny extTriv _ _ attnWTiny
      embedsT posIdsTiny 1 1 emptyCache (fun k cs sn p => rfl),
    c4_rotary_applied_asymmetrically.2.2.2.1 cfgTiny extTriv _ _ attnWTiny
      embedsT posIdsTiny 1 1 emptyCache 1 rfl (fun v => rfl),
    c4_rotary_applied_asymmetrically.2.2.2.2 cfgTiny extTriv _ _ _ _ attnWTiny
      embedsT posIdsTiny 1 1 emptyCache⟩

/-- Position ids `[[0, 1, 2], [0, 1, -1]]` from the claim's concrete
scenario (second sequence padded). -/
def posIds8 : Tens ℤ :=
  ⟨[2, 3], fun ix => if ix.getD 0 0 = 1 ∧ ix.getD 1 0 = 2 then -1 else (ix.getD 1 0 : ℤ)⟩

/-- C8: the head selects, per sequence, the hidden state at the index of
the maximum (int32-cast) position id and returns logits of shape
(batch, 1, out_features); and on `[[0, 1, 2], [0, 1, -1]]` it selects
index 2 for the first sequence and index 1 for the second. -/
theorem c8_head_selects_max_position (lmHead : Linear) (hidden : Tens ℚ)
    (posIds : Tens ℤ) (B S H : Nat)
    (hp : posIds.dims = [B, S]) (hh : hidden.dims = [B, S, H]) (hS : 0 < S)
    (hRange : ∀ b < B, ∀ s < S,
      -(2 ^ 31) ≤ posIds.entry [b, s] ∧ posIds.entry [b, s] < 2 ^ 31) :
    (lmHeadSelect lmHead hidden posIds).dims = [B, 1, lmHead.outF]
    ∧ (∀ b < B, selIdx posIds b < S
        ∧ ∀ s < S, posIds.entry [b, s] ≤ posIds.entry [b, selIdx posIds b])
    ∧ (selIdx posIds8 0 = 2 ∧ selIdx posIds8 1 = 1) := by
  have hS' : posIds.dimAt 1 = S := by unfold Tens.dimAt; rw [hp]; rfl
  refine ⟨?_, ?_, by decide, by decide⟩
  · show ([posIds.dimAt 0, 1, hidden.dimAt 2].dropLast ++ [lmHead.outF])
      = [B, 1, lmHead.outF]
    have h0 : posIds.dimAt 0 = B := by unfold Tens.dimAt; rw [hp]; rfl
    rw [h0]
    rfl
  · intro b hb
    have hlt : selIdx posIds b < S := by
      unfold selIdx
      rw [hS']
      exact argmaxFirst_lt _ S hS
    refine ⟨hlt, fun s hs => ?_⟩
    have hsel : selIdx posIds b = argmaxFirst (fun j => toInt32 (posIds.entry [b, j])) S := by
      unfold selIdx; rw [hS']
    have hle := argmaxFirst_le (fun j => toInt32 (posIds.entry [b, j])) S s hs
    dsimp only at hle
    rw [← hsel] at hle
    have h1 := hRange b hb s hs
    have h2 := hRange b hb (selIdx posIds b) hlt
    rw [toInt32_eq_self _ h1.1 h1.2, toInt32_eq_self _ h2.1 h2.2] at hle
    exact hle

/-- Constant hidden states for the C8 witness. -/
def hid8 : Tens ℚ := ⟨[2, 3, 1], fun _ => 1⟩

/-- Witness for C8: the theorem applied at the claim's own concrete
scenario. -/
theorem c8_witness :
    (lmHeadSelect (linId 1) hid8 posIds8).dims = [2, 1, 1]
    ∧ selIdx posIds8 0 = 2 ∧ selIdx posIds8 1 = 1 := by
  have h := c8_head_selects_max_position (linId 1) hid8 posIds8 2 3 1 rfl rfl
    (by decide) (by decide)
  exact ⟨h.1, h.2.2⟩

end SwiftKV
